import Mathlib

/-!
Verification of the spaced-repetition core of the Duocards flashcard app.

The embedding models `src/models.py` (the `CardDB` and `ReviewHistory`
records), `src/spaced_rep.py` (the SM-2 update `calculate_sm2` and the
two selector queries `get_due_cards` / `get_new_cards`) and the two
review endpoints of `src/app.py` (`get_review_cards`, `review_card`).

Conventions of the embedding:
- Python floats are modelled as exact rationals (`ℚ`); the decimal
  literals of the source (1.3, 0.1, 0.08, 0.02, 2.5) are taken at their
  mathematical value.
- `datetime` timestamps are rationals measured in days, so
  `timedelta(days=n)` is addition of `(n : ℚ)`.
- Python `int` is `ℤ`.
- Python's built-in `round` (round half to even) is `pyRound`.
- The SQL store is a list of cards; `query(...).filter(...).order_by(...)
  .limit(...)` is filter, then an insertion sort on the key, then `take`.
- The wall clock `datetime.utcnow()` read inside a function becomes an
  explicit `now` parameter.
-/

/-- One row of the `review_history` table (`src/models.py`, `ReviewHistory`). -/
structure ReviewHistory where
  card_id : ℤ
  quality : ℤ
  reviewed_at : ℚ
  deriving Repr, DecidableEq

/-- One row of the `cards` table (`src/models.py`, `CardDB`), together with its
`history` relationship. -/
structure CardDB where
  id : ℤ
  word : String
  translation : String
  grammar : Option String
  «example» : Option String
  audio_url : Option String
  ease_factor : ℚ
  interval : ℤ
  repetitions : ℤ
  next_review : ℚ
  created_at : ℚ
  history : List ReviewHistory
  deriving Repr, DecidableEq

/-- Python's built-in `round`: round half to even. -/
def pyRound (x : ℚ) : ℤ :=
  if x - ⌊x⌋ < 1/2 then ⌊x⌋
  else if 1/2 < x - ⌊x⌋ then ⌊x⌋ + 1
  else if ⌊x⌋ % 2 = 0 then ⌊x⌋ else ⌊x⌋ + 1

/-- `calculate_sm2` from `src/spaced_rep.py`: apply the SM-2 algorithm to
update a card's spaced-repetition fields.  The source reads
`datetime.utcnow()` for the next-review date; here it is the `now`
parameter. -/
def calculate_sm2 (card : CardDB) (quality : ℤ) (now : ℚ) : CardDB :=
  -- Clamp quality to valid range
  let quality := max 0 (min 5 quality)
  -- Update ease factor: EF' = EF + (0.1 - (5 - q) * (0.08 + (5 - q) * 0.02))
  let card := { card with
    ease_factor := max 1.3
      (card.ease_factor +
        ((0.1 : ℚ) - ((5 - quality : ℤ) : ℚ) * ((0.08 : ℚ) + ((5 - quality : ℤ) : ℚ) * (0.02 : ℚ)))) }
  let card :=
    if quality < 3 then
      -- Failed - reset repetitions, review again soon
      { card with repetitions := 0, interval := 1 }
    else
      -- Success - increase interval
      let card :=
        if card.repetitions = 0 then { card with interval := 1 }
        else if card.repetitions = 1 then { card with interval := 6 }
        else { card with interval := pyRound ((card.interval : ℚ) * card.ease_factor) }
      { card with repetitions := card.repetitions + 1 }
  -- Set next review date
  { card with next_review := now + (card.interval : ℚ) }

/-- Insert a card into a list so that a sorted list stays sorted on `key`
(ascending).  Used to model `ORDER BY`. -/
def insertByKey (key : CardDB → ℚ) (c : CardDB) : List CardDB → List CardDB
  | [] => [c]
  | x :: xs => if key c ≤ key x then c :: x :: xs else x :: insertByKey key c xs

/-- Insertion sort on `key`, modelling SQL `ORDER BY key ASC`. -/
def sortByKey (key : CardDB → ℚ) : List CardDB → List CardDB
  | [] => []
  | x :: xs => insertByKey key x (sortByKey key xs)

/-- `get_due_cards` from `src/spaced_rep.py`: cards whose `next_review <= now`,
ordered ascending by `next_review`, capped at `limit`. -/
def get_due_cards (cards : List CardDB) (now : ℚ) (limit : ℕ) : List CardDB :=
  ((sortByKey (fun c => c.next_review)
      (cards.filter (fun c => decide (c.next_review ≤ now)))).take limit)

/-- `get_new_cards` from `src/spaced_rep.py`: cards with `repetitions == 0`,
ordered ascending by `created_at`, capped at `limit`. -/
def get_new_cards (cards : List CardDB) (limit : ℕ) : List CardDB :=
  ((sortByKey (fun c => c.created_at)
      (cards.filter (fun c => decide (c.repetitions = 0)))).take limit)

/-- `get_review_cards` from `src/app.py`: due cards first; if fewer than
`limit`, extend with new cards up to the remaining budget. -/
def get_review_cards (cards : List CardDB) (now : ℚ) (limit : ℕ) : List CardDB :=
  let due := get_due_cards cards now limit
  if due.length < limit then
    due ++ get_new_cards cards (limit - due.length)
  else
    due

/-- The one error condition of the core's external contract. -/
inductive ApiError where
  | notFound
  deriving Repr, DecidableEq

/-- `review_card` from `src/app.py`: look the card up by id, 404 when absent;
otherwise apply SM-2, append one history row and return the updated card. -/
def review_card (cards : List CardDB) (card_id : ℤ) (quality : ℤ) (now : ℚ) :
    Except ApiError CardDB :=
  match cards.find? (fun c => decide (c.id = card_id)) with
  | none => .error .notFound
  | some card =>
      let card := calculate_sm2 card quality now
      let card := { card with history := card.history ++ [⟨card.id, quality, now⟩] }
      .ok card

/-! ## Helper lemmas about `pyRound` and `calculate_sm2` -/

lemma floor_le_pyRound (x : ℚ) : ⌊x⌋ ≤ pyRound x := by
  unfold pyRound
  split
  · exact le_refl _
  · split
    · omega
    · split <;> omega

lemma one_le_pyRound (x : ℚ) (hx : (1.3 : ℚ) ≤ x) : 1 ≤ pyRound x := by
  have hf : 1 ≤ ⌊x⌋ := by
    rw [Int.le_floor]
    calc ((1:ℤ) : ℚ) = 1 := by norm_num
    _ ≤ x := by linarith
  exact le_trans hf (floor_le_pyRound x)

lemma sm2_next_review_eq (card : CardDB) (q : ℤ) (now : ℚ) :
    (calculate_sm2 card q now).next_review = now + ((calculate_sm2 card q now).interval : ℚ) := rfl

lemma clamp_lt_three {q : ℤ} (hq : q < 3) : max 0 (min 5 q) < 3 :=
  max_lt (by norm_num) (lt_of_le_of_lt (min_le_right _ _) hq)

lemma clamp_not_lt_three {q : ℤ} (hq : 3 ≤ q) : ¬ (max 0 (min 5 q) < 3) := by
  push_neg
  exact le_max_of_le_right (le_min (by norm_num) hq)

/-- Core bound: from a state with non-negative repetitions in which
`interval ≥ 1` or `repetitions ≤ 1`, the SM-2 update returns `interval ≥ 1`. -/
lemma sm2_interval_ge_one_aux (card : CardDB) (q : ℤ) (now : ℚ)
    (hr : 0 ≤ card.repetitions)
    (h : 1 ≤ card.interval ∨ card.repetitions ≤ 1) :
    1 ≤ (calculate_sm2 card q now).interval := by
  simp only [calculate_sm2]
  split
  · norm_num
  · split
    · norm_num
    · split
      · norm_num
      · rename_i h1
        have hi : 1 ≤ card.interval := by
          rcases h with h | h
          · exact h
          · omega
        refine le_trans ?_ (floor_le_pyRound _)
        rw [Int.le_floor]
        have hic : (1 : ℚ) ≤ (card.interval : ℚ) := by exact_mod_cast hi
        calc ((1:ℤ) : ℚ) = 1 := by norm_num
        _ ≤ (card.interval : ℚ) * 1.3 := by nlinarith
        _ ≤ _ := by
            apply mul_le_mul_of_nonneg_left le_sup_left
            linarith

/-! ## Concrete cards used by counterexamples and witnesses -/

/-- A scheduling state inside the spec's stated domain (non-negative interval
and repetitions) with `interval = 0` but `repetitions = 2`.  Unreachable
through the API, but inside the domain the spec quantifies over. -/
def degenerateCard : CardDB :=
  { id := 1, word := "miza", translation := "Tisch", grammar := none,
    «example» := none, audio_url := none, ease_factor := 2.5, interval := 0,
    repetitions := 2, next_review := 0, created_at := 0, history := [] }

/-- An ordinary card used to instantiate witness statements. -/
def demoCard : CardDB :=
  { id := 7, word := "hvala", translation := "danke", grammar := none,
    «example» := none, audio_url := none, ease_factor := 2.5, interval := 3,
    repetitions := 2, next_review := 10, created_at := 0, history := [] }

/-- A brand-new card (default scheduling state at creation). -/
def freshCard : CardDB :=
  { id := 8, word := "kruh", translation := "Brot", grammar := none,
    «example» := none, audio_url := none, ease_factor := 2.5, interval := 0,
    repetitions := 0, next_review := 0, created_at := 0, history := [] }

/-! ## Claim theorems: the SM-2 scheduler -/

/-- C2 (counterexample): inside the claim's stated domain (non-negative
interval and repetitions) there is a state — `interval = 0`,
`repetitions = 2` — on which a successful review returns `interval = 0`,
because `round(0 * ease_factor) = 0`.  So "for every input scheduling state
... interval >= 1" is false as stated. -/
theorem update_interval_zero_cex :
    0 ≤ degenerateCard.interval ∧ 0 ≤ degenerateCard.repetitions ∧
    ¬ (1 ≤ (calculate_sm2 degenerateCard 5 0).interval) := by
  refine ⟨by norm_num [degenerateCard], by norm_num [degenerateCard], ?_⟩
  norm_num [calculate_sm2, degenerateCard, pyRound]

/-- C2 (amended): for every state with non-negative interval and repetitions
in which additionally `interval ≥ 1` or `repetitions ≤ 1` (every state the
API can reach), and every integer quality, the updated interval is ≥ 1. -/
theorem update_interval_ge_one (card : CardDB) (q : ℤ) (now : ℚ)
    (hi : 0 ≤ card.interval) (hr : 0 ≤ card.repetitions)
    (h : 1 ≤ card.interval ∨ card.repetitions ≤ 1) :
    1 ≤ (calculate_sm2 card q now).interval :=
  sm2_interval_ge_one_aux card q now hr h

/-- C2 witness: the amended bound instantiated on a concrete card. -/
theorem update_interval_ge_one_witness :
    1 ≤ (calculate_sm2 demoCard 4 0).interval :=
  update_interval_ge_one demoCard 4 0 (by norm_num [demoCard])
    (by norm_num [demoCard]) (Or.inl (by norm_num [demoCard]))

/-- C3: from `repetitions=0, interval=0, ease_factor=2.5`, three quality-5
reviews give intervals 1, 6, `round(6 * ef₃)` (with `ef₃` the ease factor
after the third update) and repetitions 1, 2, 3.  In general, on `quality ≥ 3`
the interval decision reads the pre-increment repetitions count and the newly
updated ease factor, repetitions is incremented by exactly 1, and on
`quality < 3` repetitions is not incremented but reset to 0. -/
theorem first_success_sequencing (card card2 : CardDB) (n1 n2 n3 now : ℚ)
    (q q3 : ℤ)
    (hr : card.repetitions = 0) (hi : card.interval = 0) (he : card.ease_factor = 2.5)
    (hq : 3 ≤ q) (hq3 : q3 < 3) :
    (((calculate_sm2 card 5 n1).interval = 1 ∧ (calculate_sm2 card 5 n1).repetitions = 1) ∧
     ((calculate_sm2 (calculate_sm2 card 5 n1) 5 n2).interval = 6 ∧
      (calculate_sm2 (calculate_sm2 card 5 n1) 5 n2).repetitions = 2) ∧
     ((calculate_sm2 (calculate_sm2 (calculate_sm2 card 5 n1) 5 n2) 5 n3).interval =
        pyRound (6 * (calculate_sm2 (calculate_sm2 (calculate_sm2 card 5 n1) 5 n2) 5 n3).ease_factor) ∧
      (calculate_sm2 (calculate_sm2 (calculate_sm2 card 5 n1) 5 n2) 5 n3).repetitions = 3)) ∧
    ((calculate_sm2 card2 q now).repetitions = card2.repetitions + 1 ∧
     (calculate_sm2 card2 q now).interval =
       (if card2.repetitions = 0 then 1
        else if card2.repetitions = 1 then 6
        else pyRound ((card2.interval : ℚ) * (calculate_sm2 card2 q now).ease_factor))) ∧
    (calculate_sm2 card2 q3 now).repetitions = 0 := by
  refine ⟨?_, ?_, ?_⟩
  · norm_num [calculate_sm2, hr, hi, he, max_def, min_def]
  · have hc := clamp_not_lt_three hq
    simp only [calculate_sm2]
    rw [if_neg hc]
    by_cases h0 : card2.repetitions = 0
    · simp [h0]
    · by_cases h1 : card2.repetitions = 1
      · simp [h0, h1]
      · simp [h0, h1]
  · have hc := clamp_lt_three hq3
    simp only [calculate_sm2]
    rw [if_pos hc]

/-- C3 witness: the sequencing theorem instantiated on a fresh card, with the
general part instantiated at quality 4 (success) and 2 (failure). -/
theorem first_success_sequencing_witness :
    ((calculate_sm2 freshCard 5 0).interval = 1 ∧ (calculate_sm2 freshCard 5 0).repetitions = 1) ∧
    ((calculate_sm2 (calculate_sm2 freshCard 5 0) 5 1).interval = 6 ∧
     (calculate_sm2 (calculate_sm2 freshCard 5 0) 5 1).repetitions = 2) ∧
    ((calculate_sm2 (calculate_sm2 (calculate_sm2 freshCard 5 0) 5 1) 5 2).interval =
       pyRound (6 * (calculate_sm2 (calculate_sm2 (calculate_sm2 freshCard 5 0) 5 1) 5 2).ease_factor) ∧
     (calculate_sm2 (calculate_sm2 (calculate_sm2 freshCard 5 0) 5 1) 5 2).repetitions = 3) :=
  (first_success_sequencing freshCard demoCard 0 1 2 0 4 2
    (by norm_num [freshCard]) (by norm_num [freshCard]) (by norm_num [freshCard])
    (by norm_num) (by norm_num)).1

/-- C4: on every quality `< 3` the update resets repetitions to 0 and sets the
interval to 1; the failure interval does not depend on the ease factor (the
same card with any other ease factor gets the same interval 1); hence two
consecutive failing reviews both give `repetitions = 0` and `interval = 1`. -/
theorem failure_path_reset (card : CardDB) (q q2 : ℤ) (now now2 : ℚ) (ef : ℚ)
    (hq : q < 3) (hq2 : q2 < 3) :
    ((calculate_sm2 card q now).repetitions = 0 ∧ (calculate_sm2 card q now).interval = 1) ∧
    (calculate_sm2 { card with ease_factor := ef } q now).interval =
      (calculate_sm2 card q now).interval ∧
    ((calculate_sm2 (calculate_sm2 card q now) q2 now2).repetitions = 0 ∧
     (calculate_sm2 (calculate_sm2 card q now) q2 now2).interval = 1) := by
  have hc := clamp_lt_three hq
  have hc2 := clamp_lt_three hq2
  refine ⟨?_, ?_, ?_⟩ <;> simp only [calculate_sm2] <;> rw [if_pos hc]
  · exact ⟨rfl, rfl⟩
  · rw [if_pos hc]
  · rw [if_pos hc2]
    exact ⟨rfl, rfl⟩

/-- C4 witness: two failing reviews of a concrete mature card. -/
theorem failure_path_reset_witness :
    ((calculate_sm2 demoCard 1 0).repetitions = 0 ∧ (calculate_sm2 demoCard 1 0).interval = 1) ∧
    (calculate_sm2 { demoCard with ease_factor := 9 } 1 0).interval =
      (calculate_sm2 demoCard 1 0).interval ∧
    ((calculate_sm2 (calculate_sm2 demoCard 1 0) 2 1).repetitions = 0 ∧
     (calculate_sm2 (calculate_sm2 demoCard 1 0) 2 1).interval = 1) :=
  failure_path_reset demoCard 1 2 0 1 9 (by norm_num) (by norm_num)

/-- C5: the ease-factor floor of 1.3 is invariant: for every state with
`ease_factor ≥ 1.3` and quality in `[0, 5]`, the updated ease factor is
still ≥ 1.3. -/
theorem ease_factor_floor_invariant (card : CardDB) (q : ℤ) (now : ℚ)
    (he : (1.3 : ℚ) ≤ card.ease_factor) (hq0 : 0 ≤ q) (hq5 : q ≤ 5) :
    (1.3 : ℚ) ≤ (calculate_sm2 card q now).ease_factor := by
  simp only [calculate_sm2]
  split
  · exact le_sup_left
  · split
    · exact le_sup_left
    · split <;> exact le_sup_left

/-- C5 witness: the invariant instantiated on a concrete card and quality. -/
theorem ease_factor_floor_invariant_witness :
    (1.3 : ℚ) ≤ (calculate_sm2 demoCard 0 0).ease_factor :=
  ease_factor_floor_invariant demoCard 0 0 (by norm_num [demoCard])
    (by norm_num) (by norm_num)

/-- C6: quality is clamped to `[0, 5]`, never rejected: updating with
quality −5 returns exactly the state updating with 0 returns, and quality 99
behaves exactly like quality 5 (and `calculate_sm2` is a total function). -/
theorem quality_clamping (card : CardDB) (now : ℚ) :
    calculate_sm2 card (-5) now = calculate_sm2 card 0 now ∧
    calculate_sm2 card 99 now = calculate_sm2 card 5 now := by
  constructor <;>
  · unfold calculate_sm2
    norm_num [max_def, min_def]

/-- C7 (counterexample): from the in-domain state `interval = 0,
repetitions = 2`, a successful review computes `interval = 0`, so
`next_review = now + 0 = now` — not strictly greater than the update
timestamp.  So the claim is false over the full stated domain. -/
theorem next_review_not_advanced_cex :
    0 ≤ degenerateCard.interval ∧ 0 ≤ degenerateCard.repetitions ∧
    ¬ ((3:ℚ) < (calculate_sm2 degenerateCard 5 3).next_review) := by
  refine ⟨by norm_num [degenerateCard], by norm_num [degenerateCard], ?_⟩
  norm_num [calculate_sm2, degenerateCard, pyRound]

/-- C7 (amended): for every state with non-negative interval and repetitions
in which additionally `interval ≥ 1` or `repetitions ≤ 1` (every state the
API can reach), the updated `next_review` equals `now + interval` days and is
strictly greater than the update timestamp `now`. -/
theorem next_review_strictly_forward (card : CardDB) (q : ℤ) (now : ℚ)
    (hi : 0 ≤ card.interval) (hr : 0 ≤ card.repetitions)
    (h : 1 ≤ card.interval ∨ card.repetitions ≤ 1) :
    (calculate_sm2 card q now).next_review = now + ((calculate_sm2 card q now).interval : ℚ) ∧
    now < (calculate_sm2 card q now).next_review := by
  refine ⟨rfl, ?_⟩
  have h1 : (1 : ℚ) ≤ ((calculate_sm2 card q now).interval : ℚ) := by
    exact_mod_cast sm2_interval_ge_one_aux card q now hr h
  rw [sm2_next_review_eq]
  linarith

/-- C7 witness: the amended claim instantiated on a concrete card. -/
theorem next_review_strictly_forward_witness :
    (calculate_sm2 demoCard 4 100).next_review =
      100 + ((calculate_sm2 demoCard 4 100).interval : ℚ) ∧
    (100:ℚ) < (calculate_sm2 demoCard 4 100).next_review :=
  next_review_strictly_forward demoCard 4 100 (by norm_num [demoCard])
    (by norm_num [demoCard]) (Or.inl (by norm_num [demoCard]))

/-- C9: for any state with `ease_factor = 2.5`, quality 5 gives
`ease_factor' = 2.6`, and quality 0 gives `ease_factor' = max(1.3, 1.7) = 1.7`
together with `repetitions = 0` and `interval = 1`.  The recurrence is
evaluated on the pre-update ease factor and the clamped quality. -/
theorem ease_factor_concrete_updates (card : CardDB) (now now2 : ℚ)
    (he : card.ease_factor = 2.5) :
    (calculate_sm2 card 5 now).ease_factor = 2.6 ∧
    ((calculate_sm2 card 0 now2).ease_factor = 1.7 ∧
     (calculate_sm2 card 0 now2).repetitions = 0 ∧
     (calculate_sm2 card 0 now2).interval = 1) := by
  constructor
  · simp only [calculate_sm2]
    norm_num [apply_ite CardDB.ease_factor, he, max_def, min_def]
  · norm_num [calculate_sm2, he, max_def, min_def]

/-- C9 witness: the concrete ease-factor scenarios on a concrete card. -/
theorem ease_factor_concrete_updates_witness :
    (calculate_sm2 demoCard 5 0).ease_factor = 2.6 ∧
    ((calculate_sm2 demoCard 0 1).ease_factor = 1.7 ∧
     (calculate_sm2 demoCard 0 1).repetitions = 0 ∧
     (calculate_sm2 demoCard 0 1).interval = 1) :=
  ease_factor_concrete_updates demoCard 0 1 (by norm_num [demoCard])

/-- C10: the SM-2 update only touches the four scheduling fields; the card's
identity and content fields (`id`, `word`, `translation`, `grammar`,
`example`, `audio_url`, `created_at`) and its review-history collection are
returned unchanged for every card and every quality. -/
theorem sm2_frame_condition (card : CardDB) (q : ℤ) (now : ℚ) :
    (calculate_sm2 card q now).id = card.id ∧
    (calculate_sm2 card q now).word = card.word ∧
    (calculate_sm2 card q now).translation = card.translation ∧
    (calculate_sm2 card q now).grammar = card.grammar ∧
    (calculate_sm2 card q now).«example» = card.«example» ∧
    (calculate_sm2 card q now).audio_url = card.audio_url ∧
    (calculate_sm2 card q now).created_at = card.created_at ∧
    (calculate_sm2 card q now).history = card.history := by
  simp only [calculate_sm2]
  split
  · simp
  · split
    · simp
    · split <;> simp

/-! ## Claim theorems: the review endpoints -/

/-- C8: the review-submission entry point returns the `NotFound` error — the
only error constructor in the contract — exactly when no card in the store
has the given identifier; on any store containing the identifier, with
quality in `[0, 5]`, it succeeds with an updated card. -/
theorem review_card_not_found_iff (cards : List CardDB) (cid q : ℤ) (now : ℚ) :
    (review_card cards cid q now = Except.error ApiError.notFound ↔
      ∀ c ∈ cards, c.id ≠ cid) ∧
    (0 ≤ q → q ≤ 5 → (∃ c ∈ cards, c.id = cid) →
      ∃ card, review_card cards cid q now = Except.ok card) := by
  constructor
  · cases hf : cards.find? (fun c => decide (c.id = cid)) with
    | none =>
        constructor
        · intro _ c hc
          simpa using List.find?_eq_none.mp hf c hc
        · intro _
          unfold review_card
          rw [hf]
    | some card =>
        constructor
        · intro h
          unfold review_card at h
          rw [hf] at h
          simp at h
        · intro hall
          have hmem := List.mem_of_find?_eq_some hf
          have hid : card.id = cid := by simpa using List.find?_some hf
          exact absurd hid (hall card hmem)
  · rintro _ _ ⟨c, hc, hid⟩
    cases hf : cards.find? (fun c => decide (c.id = cid)) with
    | none =>
        exact absurd hid (by simpa using List.find?_eq_none.mp hf c hc)
    | some card =>
        refine ⟨{ calculate_sm2 card q now with
            history := (calculate_sm2 card q now).history ++
              [⟨(calculate_sm2 card q now).id, q, now⟩] }, ?_⟩
        unfold review_card
        rw [hf]

/-- C8 witness: on the one-card store `[demoCard]`, reviewing card id 7 with
quality 4 succeeds. -/
theorem review_card_not_found_iff_witness :
    ∃ card, review_card [demoCard] 7 4 0 = Except.ok card :=
  (review_card_not_found_iff [demoCard] 7 4 0).2 (by norm_num) (by norm_num)
    ⟨demoCard, by simp, by norm_num [demoCard]⟩

/-! ## Claim theorems: the due-set selector -/

/-- Card constructor fixing the content fields, used by the selector
scenarios. -/
def mkC (i : ℤ) (reps : ℤ) (nr ca : ℚ) : CardDB :=
  { id := i, word := "w", translation := "t", grammar := none, «example» := none,
    audio_url := none, ease_factor := 2.5, interval := 1, repetitions := reps,
    next_review := nr, created_at := ca, history := [] }

/-- A store with 3 due cards (past `next_review`, positive repetitions) and
5 new cards (`repetitions = 0`) whose `next_review` — the creation-time
default — is also in the past, so the new cards match the due query too. -/
def cexStore : List CardDB :=
  [mkC 1 1 (-3) 0, mkC 2 1 (-2) 0, mkC 3 2 (-1) 0,
   mkC 4 0 (-10) (-10), mkC 5 0 (-9) (-9), mkC 6 0 (-8) (-8),
   mkC 7 0 (-7) (-7), mkC 8 0 (-6) (-6)]

/-- C1 (counterexample): on a store holding exactly 3 due cards
(`next_review ≤ now`, `repetitions > 0`) and 5 new cards
(`repetitions = 0`) whose `next_review` is the past creation time (the
default for a freshly created card), the review batch with `limit = 20` has
length 13, not 8, and repeats the five new card identifiers: the two
sub-queries are concatenated with no deduplication. -/
theorem selector_scenario_cex :
    (cexStore.filter (fun c => decide (c.next_review ≤ 0 ∧ 0 < c.repetitions))).length = 3 ∧
    (cexStore.filter (fun c => decide (c.repetitions = 0))).length = 5 ∧
    (get_review_cards cexStore 0 20).length = 13 ∧
    ¬ ((get_review_cards cexStore 0 20).map (fun c => c.id)).Nodup := by
  decide

/-- The scenario store of the amended C1 claim: 3 due cards and 5 new cards
(with future `next_review`), held in scrambled order. -/
def scenarioStore (r1 r2 r3 : ℤ) (t1 t2 t3 b1 b2 b3 u1 u2 u3 u4 u5 c1 c2 c3 c4 c5 : ℚ) :
    List CardDB :=
  [mkC 6 0 u3 c3, mkC 2 r2 t2 b2, mkC 8 0 u5 c5, mkC 3 r3 t3 b3,
   mkC 4 0 u1 c1, mkC 1 r1 t1 b1, mkC 7 0 u4 c4, mkC 5 0 u2 c2]

/-- C1 (amended): when the store holds 3 due cards (`next_review ≤ now`,
`repetitions > 0`, distinct `next_review`) and 5 new cards
(`repetitions = 0`, distinct `created_at`) whose `next_review` lies in the
future (so the new cards are not themselves due), the review batch with
`limit = 20` is exactly the 3 due cards in ascending `next_review` order
followed by the 5 new cards in ascending creation order: total length 8,
no card identifier twice. -/
theorem selector_scenario (now t1 t2 t3 b1 b2 b3 u1 u2 u3 u4 u5 c1 c2 c3 c4 c5 : ℚ)
    (r1 r2 r3 : ℤ)
    (h1 : t1 < t2) (h2 : t2 < t3) (h3 : t3 ≤ now)
    (hr1 : 0 < r1) (hr2 : 0 < r2) (hr3 : 0 < r3)
    (hc12 : c1 < c2) (hc23 : c2 < c3) (hc34 : c3 < c4) (hc45 : c4 < c5)
    (hu1 : now < u1) (hu2 : now < u2) (hu3 : now < u3) (hu4 : now < u4) (hu5 : now < u5) :
    get_review_cards (scenarioStore r1 r2 r3 t1 t2 t3 b1 b2 b3 u1 u2 u3 u4 u5 c1 c2 c3 c4 c5) now 20 =
      [mkC 1 r1 t1 b1, mkC 2 r2 t2 b2, mkC 3 r3 t3 b3,
       mkC 4 0 u1 c1, mkC 5 0 u2 c2, mkC 6 0 u3 c3, mkC 7 0 u4 c4, mkC 8 0 u5 c5] ∧
    (get_review_cards (scenarioStore r1 r2 r3 t1 t2 t3 b1 b2 b3 u1 u2 u3 u4 u5 c1 c2 c3 c4 c5) now 20).length = 8 ∧
    ((get_review_cards (scenarioStore r1 r2 r3 t1 t2 t3 b1 b2 b3 u1 u2 u3 u4 u5 c1 c2 c3 c4 c5) now 20).map
        (fun c => c.id)).Nodup := by
  have hd1 : t1 ≤ now := by linarith
  have hd2 : t2 ≤ now := by linarith
  have hn1 : ¬ (u1 ≤ now) := not_le.mpr hu1
  have hn2 : ¬ (u2 ≤ now) := not_le.mpr hu2
  have hn3 : ¬ (u3 ≤ now) := not_le.mpr hu3
  have hn4 : ¬ (u4 ≤ now) := not_le.mpr hu4
  have hn5 : ¬ (u5 ≤ now) := not_le.mpr hu5
  have e21 : ¬ (t2 ≤ t1) := not_le.mpr h1
  have e31 : ¬ (t3 ≤ t1) := not_le.mpr (h1.trans h2)
  have e23 : t2 ≤ t3 := h2.le
  have f12 : c1 ≤ c2 := hc12.le
  have f13 : c1 ≤ c3 := (hc12.trans hc23).le
  have f14 : c1 ≤ c4 := ((hc12.trans hc23).trans hc34).le
  have f15 : c1 ≤ c5 := (((hc12.trans hc23).trans hc34).trans hc45).le
  have f23 : c2 ≤ c3 := hc23.le
  have f24 : c2 ≤ c4 := (hc23.trans hc34).le
  have f34 : c3 ≤ c4 := hc34.le
  have g21 : ¬ (c2 ≤ c1) := not_le.mpr hc12
  have g31 : ¬ (c3 ≤ c1) := not_le.mpr (hc12.trans hc23)
  have g32 : ¬ (c3 ≤ c2) := not_le.mpr hc23
  have g41 : ¬ (c4 ≤ c1) := not_le.mpr ((hc12.trans hc23).trans hc34)
  have g42 : ¬ (c4 ≤ c2) := not_le.mpr (hc23.trans hc34)
  have g43 : ¬ (c4 ≤ c3) := not_le.mpr hc34
  have g51 : ¬ (c5 ≤ c1) := not_le.mpr (((hc12.trans hc23).trans hc34).trans hc45)
  have g52 : ¬ (c5 ≤ c2) := not_le.mpr ((hc23.trans hc34).trans hc45)
  have g53 : ¬ (c5 ≤ c3) := not_le.mpr (hc34.trans hc45)
  have g54 : ¬ (c5 ≤ c4) := not_le.mpr hc45
  refine ⟨?_, ?_, ?_⟩ <;>
    simp [get_review_cards, get_due_cards, get_new_cards, scenarioStore, mkC,
      sortByKey, insertByKey, List.filter,
      hd1, hd2, h3, hn1, hn2, hn3, hn4, hn5,
      hr1.ne', hr2.ne', hr3.ne',
      e21, e31, e23, f12, f13, f14, f15, f23, f24, f34,
      g21, g31, g32, g41, g42, g43, g51, g52, g53, g54]

/-- C1 witness: the amended selector scenario instantiated at concrete
timestamps, repetitions counts and creation times. -/
theorem selector_scenario_witness :
    get_review_cards (scenarioStore 1 1 2 (-3) (-2) (-1) 0 0 0 1 2 3 4 5 (-10) (-9) (-8) (-7) (-6)) 0 20 =
      [mkC 1 1 (-3) 0, mkC 2 1 (-2) 0, mkC 3 2 (-1) 0,
       mkC 4 0 1 (-10), mkC 5 0 2 (-9), mkC 6 0 3 (-8), mkC 7 0 4 (-7), mkC 8 0 5 (-6)] ∧
    (get_review_cards (scenarioStore 1 1 2 (-3) (-2) (-1) 0 0 0 1 2 3 4 5 (-10) (-9) (-8) (-7) (-6)) 0 20).length = 8 ∧
    ((get_review_cards (scenarioStore 1 1 2 (-3) (-2) (-1) 0 0 0 1 2 3 4 5 (-10) (-9) (-8) (-7) (-6)) 0 20).map
        (fun c => c.id)).Nodup :=
  selector_scenario 0 (-3) (-2) (-1) 0 0 0 1 2 3 4 5 (-10) (-9) (-8) (-7) (-6) 1 1 2
    (by norm_num) (by norm_num) (by norm_num) (by norm_num) (by norm_num) (by norm_num)
    (by norm_num) (by norm_num) (by norm_num) (by norm_num)
    (by norm_num) (by norm_num) (by norm_num) (by norm_num) (by norm_num)
